import Mathlib

/-!
Verification of the host-side control core of the XD6 six-axis robot arm.

The development shallowly embeds the TypeScript source:

* `src/lib/Joint.ts` — per-axis joint controller (homing, range checks,
  relative/absolute rotation against the Firmata AccelStepper gateway).
  Angles are embedded as rationals (the source works with JS numbers and the
  claims under study concern exact control-flow and algebraic facts, not
  floating-point rounding); the microcontroller's reported absolute step
  counts are integers supplied as explicit environment inputs, and every
  wire command sent to the gateway is recorded in a trace.
* `src/unnamed/part_005` — `getCoordinatedSpeeds`.
* `src/unnamed/part_008` — `Robot.moveToLinearly` (the moveL planner),
  parameterized by an abstract inverse-kinematics function.
* `src/lib/kinematics.ts` — `getJ1Angle`, `createHomogeneousMatrix`,
  `extractHomogeneousMatrix` over the reals.

The per-joint configuration table `JOINT_CONFIGS` lives in `config.ts`,
which only provides data (positive max speeds, ranges); the functions
below take the relevant configuration values as parameters.
-/

namespace XD6

/-- Joint configuration, from `MotorConfig` in `src/lib/Joint.ts`
(pin numbers are irrelevant to the verified behaviour and omitted). -/
structure JointConfig where
  STEPS_PER_REV : ℚ
  MAX_ACCELERATION : ℚ
  MAX_SPEED : ℚ
  READY_POSITION : ℚ
  RANGE : ℚ × ℚ
  HOMING_SPEED : ℚ
deriving DecidableEq

/-- Mutable joint state, from the private fields of `class Joint`. -/
structure JointState where
  degrees : ℚ
  homed : Bool
  isHoming : Bool
  homeSwitchActivate : Bool
  currentSpeedInDegrees : ℚ
  currentAcceleration : ℚ
deriving DecidableEq

/-- Errors thrown by the joint controller. -/
inductive JointError
  | notHomed
  | outOfRange
  | homingFailed
deriving DecidableEq

/-- Commands sent to the Firmata AccelStepper gateway (`io.accelStepper*`). -/
inductive WireCmd
  | speedCmd (steps : ℚ)
  | accelCmd (steps : ℚ)
  | stepRel (steps : ℚ)
  | stepAbs (steps : ℚ)
  | stopCmd
  | reportCmd
  | zeroCmd
deriving DecidableEq

/-- Result of a joint operation: the trace of wire commands it issued,
the joint state it left behind, and its outcome. -/
structure OpResult (α : Type) where
  trace : List WireCmd
  state : JointState
  result : Except JointError α

/-- `Joint.convertDegreesToSteps`: `(degrees / 360) * this.STEPS_PER_REV`. -/
def convertDegreesToSteps (cfg : JointConfig) (degrees : ℚ) : ℚ :=
  degrees / 360 * cfg.STEPS_PER_REV

/-- `Joint.convertStepsToDegrees`: `(steps / this.STEPS_PER_REV) * 360`. -/
def convertStepsToDegrees (cfg : JointConfig) (steps : ℚ) : ℚ :=
  steps / cfg.STEPS_PER_REV * 360

/-- `Joint.ensureHomed`: returns when homing; throws when not homed. -/
def ensureHomed (st : JointState) : Except JointError Unit :=
  if st.isHoming then .ok ()
  else if !st.homed then .error .notHomed
  else .ok ()

/-- `Joint.ensureInRange`: bypassed while homing; throws when the target
is outside `[min, max]`. -/
def ensureInRange (cfg : JointConfig) (st : JointState) (targetDegrees : ℚ) :
    Except JointError Unit :=
  if st.isHoming then .ok ()
  else if targetDegrees < cfg.RANGE.1 ∨ targetDegrees > cfg.RANGE.2 then
    .error .outOfRange
  else .ok ()

/-- `Joint.setSpeed`: converts to steps, sends `accelStepperSpeed`,
records the new current speed. -/
def setSpeed (cfg : JointConfig) (st : JointState) (speedInDegrees : ℚ) :
    JointState × List WireCmd :=
  ({ st with currentSpeedInDegrees := speedInDegrees },
   [WireCmd.speedCmd (convertDegreesToSteps cfg speedInDegrees)])

/-- `Joint.setAcceleration`: converts to steps, sends
`accelStepperAcceleration`, records the new current acceleration. -/
def setAcceleration (cfg : JointConfig) (st : JointState)
    (accelerationInDegrees : ℚ) : JointState × List WireCmd :=
  ({ st with currentAcceleration := accelerationInDegrees },
   [WireCmd.accelCmd (convertDegreesToSteps cfg accelerationInDegrees)])

/-- `Joint.rotateBy`.  `reportPos` is the absolute step count returned by the
`accelStepperReportPosition` round-trip inside the call, `completedAbs` the
absolute step count carried by the completion callback of the step command.
The zero-degree case returns immediately through a `step(0)` fence without
the homed or range checks and without touching `this.degrees`.  Otherwise
`this.degrees` is updated from the reported count and the promise resolves
with the strict equality `expectedDegrees === this.degrees`. -/
def rotateBy (cfg : JointConfig) (st : JointState) (degrees : ℚ)
    (reportPos completedAbs : ℤ) : OpResult Bool :=
  if degrees = 0 then ⟨[WireCmd.stepRel 0], st, .ok true⟩
  else
    match ensureHomed st with
    | .error e => ⟨[], st, .error e⟩
    | .ok _ =>
      let expectedDegrees := degrees + convertStepsToDegrees cfg (reportPos : ℚ)
      match ensureInRange cfg st expectedDegrees with
      | .error e => ⟨[WireCmd.reportCmd], st, .error e⟩
      | .ok _ =>
        let steps := convertDegreesToSteps cfg degrees
        let newDegrees := convertStepsToDegrees cfg (completedAbs : ℚ)
        ⟨[WireCmd.reportCmd, WireCmd.stepRel steps],
         { st with degrees := newDegrees },
         .ok (decide (expectedDegrees = newDegrees))⟩

/-- `Joint.rotateTo`: homed check, range check on the absolute target,
then `accelStepperTo`; on completion `this.degrees` is updated from the
reported absolute step count and the promise resolves with the strict
equality `degrees === this.degrees`. -/
def rotateTo (cfg : JointConfig) (st : JointState) (degrees : ℚ)
    (completedAbs : ℤ) : OpResult Bool :=
  match ensureHomed st with
  | .error e => ⟨[], st, .error e⟩
  | .ok _ =>
    match ensureInRange cfg st degrees with
    | .error e => ⟨[], st, .error e⟩
    | .ok _ =>
      let steps := convertDegreesToSteps cfg degrees
      let newDegrees := convertStepsToDegrees cfg (completedAbs : ℚ)
      ⟨[WireCmd.stepAbs steps],
       { st with degrees := newDegrees },
       .ok (decide (degrees = newDegrees))⟩

/-- `Joint.stop`: `accelStepperStop`, save the current acceleration, zero
it, drain with a `rotateBy(0)` fence, restore the saved acceleration. -/
def stopJoint (cfg : JointConfig) (st : JointState) :
    JointState × List WireCmd :=
  let previousAcceleration := st.currentAcceleration
  let s1 := setAcceleration cfg st 0
  let fence := rotateBy cfg s1.1 0 0 0
  let s2 := setAcceleration cfg fence.state previousAcceleration
  (s2.1, WireCmd.stopCmd :: s1.2 ++ fence.trace ++ s2.2)

/-- Environment inputs consumed by one activation of `Joint.home`.  The
integer fields are the absolute step counts delivered by the
microcontroller for each position report / motion completion inside that
activation; the Boolean fields give the value of `homeSwitchActivate`
after the corresponding motion, standing for the limit-switch
press/release events fired while it ran. -/
structure HomeRound where
  precheckReport : ℤ
  precheckComplete : ℤ
  switchAfterBackoff : Bool
  seekReport : ℤ
  seekComplete : ℤ
  switchAfterSeek : Bool
  readyComplete : ℤ
deriving DecidableEq

/-- `Joint.home`.  One `HomeRound` is consumed per activation (the
pre-check branch re-enters `home()` recursively); `none` means the round
list was exhausted before the homing state machine terminated.  Mirrors
the source exactly: set `isHoming`; if the switch is active, back off 15°
and recurse; otherwise seek at homing speed with zero acceleration over
`RANGE[1] + 5` degrees in the negative direction, stop, restore speed and
acceleration, zero the device counter, then either rotate to the ready
position and clear `isHoming` (switch active) or throw `homingFailed`
(switch inactive — note the source `throw` skips the
`this.isHoming = false` assignment). -/
def home (cfg : JointConfig) : JointState → List HomeRound →
    Option (OpResult Bool)
  | _, [] => none
  | st, e :: rest =>
    let st := { st with isHoming := true }
    if st.homeSwitchActivate then
      let r1 := rotateBy cfg st 15 e.precheckReport e.precheckComplete
      match r1.result with
      | .error err => some ⟨r1.trace, r1.state, .error err⟩
      | .ok _ =>
        let st1 := { r1.state with homeSwitchActivate := e.switchAfterBackoff }
        match home cfg st1 rest with
        | none => none
        | some r2 => some ⟨r1.trace ++ r2.trace, r2.state, r2.result⟩
    else
      let s1 := setSpeed cfg st cfg.HOMING_SPEED
      let s2 := setAcceleration cfg s1.1 0
      let maxRange := cfg.RANGE.2 + 5
      let r2 := rotateBy cfg s2.1 (-maxRange) e.seekReport e.seekComplete
      match r2.result with
      | .error err => some ⟨s1.2 ++ s2.2 ++ r2.trace, r2.state, .error err⟩
      | .ok _ =>
        let st3 := { r2.state with homeSwitchActivate := e.switchAfterSeek }
        let s4 := stopJoint cfg st3
        let s5 := setSpeed cfg s4.1 cfg.MAX_SPEED
        let s6 := setAcceleration cfg s5.1 cfg.MAX_ACCELERATION
        let zeroTrace := [WireCmd.zeroCmd]
        let preTrace := s1.2 ++ s2.2 ++ r2.trace ++ s4.2 ++ s5.2 ++ s6.2 ++
          zeroTrace
        if s6.1.homeSwitchActivate then
          let st7 := { s6.1 with homed := true }
          let r3 := rotateTo cfg st7 cfg.READY_POSITION e.readyComplete
          match r3.result with
          | .error err => some ⟨preTrace ++ r3.trace, r3.state, .error err⟩
          | .ok _ =>
            let st8 := { r3.state with isHoming := false }
            some ⟨preTrace ++ r3.trace, st8, .ok true⟩
        else
          let st7 := { s6.1 with homed := false }
          some ⟨preTrace, st7, .error .homingFailed⟩

/-- The `J1` entry of `MOTOR_CONFIGS` in `src/lib/Joint.ts`
(`STEPS_PER_REV = 800 * 10 * 4`). -/
def MOTOR_CONFIG_J1 : JointConfig :=
  { STEPS_PER_REV := 32000, MAX_ACCELERATION := 4, MAX_SPEED := 10,
    READY_POSITION := 55, RANGE := (0, 105), HOMING_SPEED := 3 }

/-- The `J3` entry of `MOTOR_CONFIGS` in `src/lib/Joint.ts`
(`STEPS_PER_REV = 800 * 50`). -/
def MOTOR_CONFIG_J3 : JointConfig :=
  { STEPS_PER_REV := 40000, MAX_ACCELERATION := 20, MAX_SPEED := 30,
    READY_POSITION := 37.791, RANGE := (0, 140), HOMING_SPEED := 4 }

/-- The `J6` entry of `MOTOR_CONFIGS` in `src/lib/Joint.ts`
(`STEPS_PER_REV = 1600`). -/
def MOTOR_CONFIG_J6 : JointConfig :=
  { STEPS_PER_REV := 1600, MAX_ACCELERATION := 100, MAX_SPEED := 100,
    READY_POSITION := 173, RANGE := (0, 330), HOMING_SPEED := 10 }

/-- A homed, idle joint state at the origin. -/
def homedIdleState : JointState :=
  { degrees := 0, homed := true, isHoming := false,
    homeSwitchActivate := false, currentSpeedInDegrees := 10,
    currentAcceleration := 4 }

/-- A freshly constructed, un-homed joint state. -/
def freshState : JointState :=
  { degrees := 0, homed := false, isHoming := false,
    homeSwitchActivate := false, currentSpeedInDegrees := 10,
    currentAcceleration := 4 }

/-- The `Math.max(...args)` spread over a list: `none` models the
`-Infinity` result on an empty argument list, otherwise the maximum. -/
def jsMax : List ℚ → Option ℚ
  | [] => none
  | a :: rest =>
    match jsMax rest with
    | none => some a
    | some m => some (max a m)

/-- The `theoreticalTimes` array of `getCoordinatedSpeeds`
(`src/unnamed/part_005`): `deltaAngles.map((delta, index) =>
Math.abs(delta) / JOINT_CONFIGS[J(index+1)].MAX_SPEED)`, written as an
explicit map-with-index; the per-joint `MAX_SPEED` column of
`JOINT_CONFIGS` (from `config.ts`, positive per spec §3) is the
`maxSpeeds` parameter. -/
def theoreticalTimes (maxSpeeds : List ℚ) : ℕ → List ℚ → List ℚ
  | _, [] => []
  | i, delta :: rest =>
    |delta| / maxSpeeds.getD i 0 :: theoreticalTimes maxSpeeds (i + 1) rest

/-- `getCoordinatedSpeeds` from `src/unnamed/part_005`: when the maximum
theoretical travel time is zero all speeds are zero; otherwise each delta
is divided by the maximum travel time.  (On an empty input `Math.max()`
is `-Infinity`, the zero test fails, and mapping the empty list again
yields `[]`.) -/
def getCoordinatedSpeeds (maxSpeeds deltaAngles : List ℚ) : List ℚ :=
  let times := theoreticalTimes maxSpeeds 0 deltaAngles
  match jsMax times with
  | none => []
  | some maxTravelTime =>
    if maxTravelTime = 0 then deltaAngles.map fun _ => 0
    else deltaAngles.map fun delta => delta / maxTravelTime

/-- Errors thrown by `Robot.moveToLinearly` (`src/unnamed/part_008`):
the start/end IK validity check, the zero-max-velocity check, an
exception propagating out of `inverseKinematics`, and the per-sample
trajectory validity check. -/
inductive MoveLError
  | invalidIKSolution
  | zeroMaxVelocity
  | ikThrew
  | trajectoryIKInvalid
deriving DecidableEq

/-- The timing quantities of one `moveToLinearly` invocation:
`totalMoveTimeSeconds`, `numSteps`, the `setInterval` period and the
final settle delay passed to `setTimeout`. -/
structure MoveLPlan where
  totalMoveTimeSeconds : ℚ
  numSteps : ℤ
  tickPeriodMs : ℚ
  settleWaitMs : ℚ
deriving DecidableEq

/-- `Robot.CONTROL_LOOP_FREQUENCY_HZ = 50`. -/
def CONTROL_LOOP_FREQUENCY_HZ : ℚ := 50

/-- `Robot.TIME_STEP_MS = 1000 / CONTROL_LOOP_FREQUENCY_HZ`. -/
def TIME_STEP_MS : ℚ := 1000 / CONTROL_LOOP_FREQUENCY_HZ

/-- `lerp` from `src/unnamed/part_008`. -/
def lerp (a b t : ℚ) : ℚ := a + (b - a) * t

/-- Map-with-index recursion for `interpolatePose`:
`p1.map((val, i) => lerp(val, p2[i], t))`. -/
def interpolatePoseFrom (p2 : List ℚ) (t : ℚ) : ℕ → List ℚ → List ℚ
  | _, [] => []
  | i, v :: rest => lerp v (p2.getD i 0) t :: interpolatePoseFrom p2 t (i + 1) rest

/-- `interpolatePose` from `src/unnamed/part_008`. -/
def interpolatePose (p1 p2 : List ℚ) (t : ℚ) : List ℚ :=
  interpolatePoseFrom p2 t 0 p1

/-- The body of the `for` loop of step 2 of `moveToLinearly`: update the
running `maxRequiredTime` with joint `j`, throwing when a joint with zero
max velocity has to move. -/
def maxRequiredTimeStep (maxSpeeds startJointAngles endJointAngles : List ℚ)
    (maxRequiredTime : ℚ) (j : ℕ) : Except MoveLError ℚ :=
  let angleDiff := |endJointAngles.getD j 0 - startJointAngles.getD j 0|
  let maxVelocity := maxSpeeds.getD j 0
  if maxVelocity = 0 ∧ 0 < angleDiff then .error .zeroMaxVelocity
  else if 0 < maxVelocity then
    .ok (if maxRequiredTime < angleDiff / maxVelocity then
          angleDiff / maxVelocity
        else maxRequiredTime)
  else .ok maxRequiredTime

/-- Step 2 of `moveToLinearly`: the minimum total time required by the
slowest joint, accumulated over the six joints starting from 0. -/
def maxRequiredTimeLoop (maxSpeeds startJointAngles endJointAngles : List ℚ) :
    Except MoveLError ℚ :=
  (List.range 6).foldlM
    (maxRequiredTimeStep maxSpeeds startJointAngles endJointAngles) 0

/-- Step 4 of `moveToLinearly`: for `i ∈ 0..numSteps` compute
`t = i/numSteps`, interpolate the pose, run IK and validate that it
returned six joint angles; abort on the first failure. -/
def generateTrajectory (ik : List ℚ → Option (List ℚ))
    (currentPose target : List ℚ) (numSteps : ℤ) :
    Except MoveLError (List (List ℚ)) :=
  (List.range (numSteps.toNat + 1)).mapM fun (i : ℕ) =>
    let t : ℚ := (i : ℚ) / (numSteps : ℚ)
    match ik (interpolatePose currentPose target t) with
    | none => .error .ikThrew
    | some q => if q.length = 6 then .ok q else .error .trajectoryIKInvalid

/-- Step 5 of `moveToLinearly`: the `rotateTo` commands streamed by the
`setInterval` ticks — for each `currentStep ∈ 0..numSteps` and each of
the six joints, the entry `jointTrajectories[jointIndex][currentStep]`
when it is defined.  Each dispatched command is
`(currentStep, jointIndex, targetAngle)`. -/
def dispatchedCommands (traj : List (List ℚ)) (numSteps : ℤ) :
    List (ℕ × ℕ × ℚ) :=
  (List.range (numSteps.toNat + 1)).flatMap fun currentStep =>
    (List.range 6).filterMap fun jointIndex =>
      match (traj.map fun q => q.getD jointIndex 0).get? currentStep with
      | none => none
      | some targetAngle => some (currentStep, jointIndex, targetAngle)

/-- `Robot.moveToLinearly` from `src/unnamed/part_008`, parameterized by
the abstract inverse-kinematics function `ik` (`none` models an
exception) and the `MAX_SPEED` column of `JOINT_CONFIGS`.  Returns the
list of streamed `rotateTo` dispatches together with either the timing
plan (`some`), the `numSteps = 0` early return (`none`), or the error
thrown.  All throws happen before the streaming scheduler starts, so an
error result carries an empty dispatch list. -/
def moveToLinearly (ik : List ℚ → Option (List ℚ)) (maxSpeeds : List ℚ)
    (currentPose target : List ℚ) :
    List (ℕ × ℕ × ℚ) × Except MoveLError (Option MoveLPlan) :=
  match ik currentPose with
  | none => ([], .error .ikThrew)
  | some startJointAngles =>
    match ik target with
    | none => ([], .error .ikThrew)
    | some endJointAngles =>
      if startJointAngles.length ≠ 6 then ([], .error .invalidIKSolution)
      else
        match maxRequiredTimeLoop maxSpeeds startJointAngles
            endJointAngles with
        | .error e => ([], .error e)
        | .ok maxRequiredTime =>
          let totalMoveTimeSeconds := max maxRequiredTime (1/2)
          let numSteps : ℤ :=
            ⌈totalMoveTimeSeconds * CONTROL_LOOP_FREQUENCY_HZ⌉
          if numSteps = 0 then ([], .ok none)
          else
            match generateTrajectory ik currentPose target numSteps with
            | .error e => ([], .error e)
            | .ok traj =>
              (dispatchedCommands traj numSteps,
               .ok (some ⟨totalMoveTimeSeconds, numSteps, TIME_STEP_MS,
                 totalMoveTimeSeconds * 1000 + 500⟩))

/-- The per-joint travel time `t_j = |q_end_j - q_start_j| / MAX_SPEED_j`
of claim C4 / spec step 2. -/
def jointTravelTime (maxSpeeds startJointAngles endJointAngles : List ℚ)
    (j : ℕ) : ℚ :=
  |endJointAngles.getD j 0 - startJointAngles.getD j 0| /
    maxSpeeds.getD j 0

/-- The property asserted by claim C9 about `getCoordinatedSpeeds`: all
zero deltas give the all-zero vector; otherwise, with `M` the maximum of
the per-joint travel times `|delta_j| / MAX_SPEED_j`, every output entry
is `delta_j / M`, preserves the sign of its delta, is bounded in
magnitude by `MAX_SPEED_j`, and a joint attaining the maximum travel time
moves at exactly its `MAX_SPEED`. -/
def CoordinatedSpeedsClaim (maxSpeeds deltaAngles : List ℚ) : Prop :=
  ((∀ d ∈ deltaAngles, d = 0) →
    getCoordinatedSpeeds maxSpeeds deltaAngles =
      deltaAngles.map fun _ => 0) ∧
  ((∃ d ∈ deltaAngles, d ≠ 0) →
    ∃ M : ℚ, 0 < M ∧
      (∀ j < deltaAngles.length,
        |deltaAngles.getD j 0| / maxSpeeds.getD j 0 ≤ M) ∧
      (∃ j < deltaAngles.length,
        |deltaAngles.getD j 0| / maxSpeeds.getD j 0 = M) ∧
      (∀ j < deltaAngles.length,
        (getCoordinatedSpeeds maxSpeeds deltaAngles).getD j 0 =
          deltaAngles.getD j 0 / M ∧
        |(getCoordinatedSpeeds maxSpeeds deltaAngles).getD j 0| ≤
          maxSpeeds.getD j 0 ∧
        (0 < deltaAngles.getD j 0 →
          0 < (getCoordinatedSpeeds maxSpeeds deltaAngles).getD j 0) ∧
        (deltaAngles.getD j 0 < 0 →
          (getCoordinatedSpeeds maxSpeeds deltaAngles).getD j 0 < 0) ∧
        (|deltaAngles.getD j 0| / maxSpeeds.getD j 0 = M →
          |(getCoordinatedSpeeds maxSpeeds deltaAngles).getD j 0| =
            maxSpeeds.getD j 0)))

/-- The `MAX_SPEED` column of the six joints (`MOTOR_CONFIGS` in
`src/lib/Joint.ts`, J1..J6), used as concrete configuration data in
witnesses. -/
def SAMPLE_MAX_SPEEDS : List ℚ := [10, 30, 30, 60, 60, 100]

/-- A total inverse-kinematics stub returning the all-zero joint vector,
used to witness a fully successful `moveToLinearly` run. -/
def constIK : List ℚ → Option (List ℚ) := fun _ => some [0, 0, 0, 0, 0, 0]

/-- An inverse-kinematics stub that throws exactly when the first pose
coordinate is `5`, used to witness a mid-trajectory IK failure. -/
def blockedIK : List ℚ → Option (List ℚ) := fun p =>
  if p.getD 0 0 = 5 then none else some [p.getD 0 0, 0, 0, 0, 0, 0]

/-- A 4×4 homogeneous matrix (the `number[][]` values produced by
`Kinematics.createHomogeneousMatrix`), with one field per entry. -/
structure Mat4 where
  m00 : ℝ
  m01 : ℝ
  m02 : ℝ
  m03 : ℝ
  m10 : ℝ
  m11 : ℝ
  m12 : ℝ
  m13 : ℝ
  m20 : ℝ
  m21 : ℝ
  m22 : ℝ
  m23 : ℝ
  m30 : ℝ
  m31 : ℝ
  m32 : ℝ
  m33 : ℝ

/-- The pose object returned by `Kinematics.extractHomogeneousMatrix`:
position plus orientation angles in degrees. -/
structure ExtractedPose where
  x : ℝ
  y : ℝ
  z : ℝ
  rx : ℝ
  ry : ℝ
  rz : ℝ

/-- `Math.atan2(y, x)`, modelled as the argument of the complex number
`x + y·i`; its value lies in `(-π, π]` and `atan2 0 0 = 0`, matching the
JavaScript function. -/
noncomputable def atan2 (y x : ℝ) : ℝ := Complex.arg ⟨x, y⟩

/-- `unit(r, "rad").toNumber("deg")`: radians to degrees. -/
noncomputable def radToDeg (r : ℝ) : ℝ := r * (180 / Real.pi)

/-- `Kinematics.createHomogeneousMatrix` from `src/lib/kinematics.ts`
(ZYX Euler rotation entries plus the translation column). -/
noncomputable def createHomogeneousMatrix (x y z rx ry rz : ℝ) : Mat4 where
  m00 := Real.cos rz * Real.cos ry
  m01 := Real.cos rz * Real.sin ry * Real.sin rx - Real.sin rz * Real.cos rx
  m02 := Real.cos rz * Real.sin ry * Real.cos rx + Real.sin rz * Real.sin rx
  m03 := x
  m10 := Real.sin rz * Real.cos ry
  m11 := Real.sin rz * Real.sin ry * Real.sin rx + Real.cos rz * Real.cos rx
  m12 := Real.sin rz * Real.sin ry * Real.cos rx - Real.cos rz * Real.sin rx
  m13 := y
  m20 := -Real.sin ry
  m21 := Real.cos ry * Real.sin rx
  m22 := Real.cos ry * Real.cos rx
  m23 := z
  m30 := 0
  m31 := 0
  m32 := 0
  m33 := 1

/-- `Kinematics.extractHomogeneousMatrix` from `src/lib/kinematics.ts`:
position from the fourth column, then
`ry = atan2(-m20, sqrt(m00² + m10²))`,
`rx = atan2(m21/cos ry, m22/cos ry)`,
`rz = atan2(m10/cos ry, m00/cos ry)`, all converted to degrees. -/
noncomputable def extractHomogeneousMatrix (m : Mat4) : ExtractedPose :=
  let x := m.m03
  let y := m.m13
  let z := m.m23
  let ry := atan2 (-m.m20) (Real.sqrt (m.m00 ^ 2 + m.m10 ^ 2))
  let rx := atan2 (m.m21 / Real.cos ry) (m.m22 / Real.cos ry)
  let rz := atan2 (m.m10 / Real.cos ry) (m.m00 / Real.cos ry)
  ⟨x, y, z, radToDeg rx, radToDeg ry, radToDeg rz⟩

/-- `Kinematics.getJ1Angle` from `src/lib/kinematics.ts`: the
quadrant-complete arctangent with its exact branch structure, including
the fall-through `return 0` (reached for `x > 0, y = 0`). -/
noncomputable def getJ1Angle (x y : ℝ) : ℝ :=
  if x = 0 then -90
  else if 0 ≤ x ∧ 0 < y then Real.arctan (y / x) * (180 / Real.pi)
  else if 0 ≤ x ∧ y < 0 then Real.arctan (y / x) * (180 / Real.pi)
  else if x < 0 ∧ y ≤ 0 then -180 + Real.arctan (y / x) * (180 / Real.pi)
  else if x ≤ 0 ∧ 0 < y then 180 + Real.arctan (y / x) * (180 / Real.pi)
  else 0

theorem jsMax_isSome (l : List ℚ) (h : l ≠ []) : ∃ m, jsMax l = some m := by
  cases l with
  | nil => exact absurd rfl h
  | cons a rest =>
    rw [jsMax]
    cases jsMax rest <;> exact ⟨_, rfl⟩

theorem jsMax_spec (l : List ℚ) (m : ℚ) (h : jsMax l = some m) :
    m ∈ l ∧ ∀ x ∈ l, x ≤ m := by
  induction l generalizing m with
  | nil => simp [jsMax] at h
  | cons a rest ih =>
    rw [jsMax] at h
    cases hrest : jsMax rest with
    | none =>
      rw [hrest] at h
      cases rest with
      | nil =>
        simp at h
        subst h
        simp
      | cons b r2 =>
        obtain ⟨m2, hm2⟩ := jsMax_isSome (b :: r2) (by simp)
        simp [hm2] at hrest
    | some m2 =>
      rw [hrest] at h
      obtain ⟨hmem, hub⟩ := ih m2 hrest
      simp only [Option.some.injEq] at h
      subst h
      constructor
      · rcases max_choice a m2 with hc | hc <;> rw [hc]
        · exact List.mem_cons_self _ _
        · exact List.mem_cons_of_mem _ hmem
      · intro x hx
        rcases List.mem_cons.mp hx with hx | hx
        · exact hx ▸ le_max_left _ _
        · exact le_trans (hub x hx) (le_max_right _ _)

theorem theoreticalTimes_length (maxSpeeds : List ℚ) (i : ℕ)
    (l : List ℚ) : (theoreticalTimes maxSpeeds i l).length = l.length := by
  induction l generalizing i with
  | nil => rfl
  | cons a rest ih => simp [theoreticalTimes, ih]

theorem theoreticalTimes_getD (maxSpeeds : List ℚ) (i j : ℕ) (l : List ℚ)
    (hj : j < l.length) :
    (theoreticalTimes maxSpeeds i l).getD j 0 =
      |l.getD j 0| / maxSpeeds.getD (i + j) 0 := by
  induction l generalizing i j with
  | nil => simp at hj
  | cons a rest ih =>
    cases j with
    | zero => simp [theoreticalTimes]
    | succ j' =>
      have hj' : j' < rest.length := by simpa using hj
      have hidx : i + (j' + 1) = (i + 1) + j' := by omega
      simp only [theoreticalTimes, List.getD_cons_succ, hidx]
      exact ih (i + 1) j' hj'

theorem theoreticalTimes_mem (maxSpeeds : List ℚ) (i : ℕ) (l : List ℚ)
    (x : ℚ) :
    x ∈ theoreticalTimes maxSpeeds i l ↔
      ∃ j, j < l.length ∧ x = |l.getD j 0| / maxSpeeds.getD (i + j) 0 := by
  induction l generalizing i with
  | nil => simp [theoreticalTimes]
  | cons a rest ih =>
    simp only [theoreticalTimes, List.mem_cons, ih (i + 1)]
    constructor
    · rintro (rfl | ⟨j, hj, rfl⟩)
      · exact ⟨0, by simp, by simp⟩
      · exact ⟨j + 1, by simpa using hj, by simp [Nat.add_comm, Nat.add_left_comm, Nat.add_assoc]⟩
    · rintro ⟨j, hj, rfl⟩
      cases j with
      | zero => left; simp
      | succ j' =>
        right
        refine ⟨j', by simpa using hj, ?_⟩
        simp [Nat.add_comm, Nat.add_left_comm, Nat.add_assoc]

theorem map_getD (f : ℚ → ℚ) (l : List ℚ) (j : ℕ) (hj : j < l.length) :
    (l.map f).getD j 0 = f (l.getD j 0) := by
  induction l generalizing j with
  | nil => simp at hj
  | cons a rest ih =>
    cases j with
    | zero => simp
    | succ j' => simpa using ih j' (by simpa using hj)

theorem getD_mem_of_lt (l : List ℚ) (j : ℕ) (hj : j < l.length) :
    l.getD j 0 ∈ l := by
  induction l generalizing j with
  | nil => simp at hj
  | cons a rest ih =>
    cases j with
    | zero => simp
    | succ j' => simpa using Or.inr (ih j' (by simpa using hj))

theorem exists_getD_of_mem (l : List ℚ) (x : ℚ) (hx : x ∈ l) :
    ∃ j, j < l.length ∧ l.getD j 0 = x := by
  induction l with
  | nil => simp at hx
  | cons a rest ih =>
    rcases List.mem_cons.mp hx with rfl | hx
    · exact ⟨0, by simp, rfl⟩
    · obtain ⟨j, hj, hjx⟩ := ih hx
      exact ⟨j + 1, by simpa using hj, by simpa using hjx⟩

/-- C9: over joints with positive configured max speeds,
`getCoordinatedSpeeds` returns the all-zero vector when every delta is
zero, and otherwise scales every delta by the reciprocal of the maximum
travel time `max_k |delta_k| / MAX_SPEED_k`, so signs are preserved,
every speed is bounded by its joint's `MAX_SPEED`, and a joint attaining
the maximum travel time moves at exactly its `MAX_SPEED`. -/
theorem getCoordinatedSpeeds_correct (maxSpeeds deltaAngles : List ℚ)
    (hlen : deltaAngles.length ≤ maxSpeeds.length)
    (hpos : ∀ s ∈ maxSpeeds, 0 < s) :
    CoordinatedSpeedsClaim maxSpeeds deltaAngles := by
  have hs : ∀ j < deltaAngles.length, 0 < maxSpeeds.getD j 0 := by
    intro j hj
    exact hpos _ (getD_mem_of_lt maxSpeeds j (lt_of_lt_of_le hj hlen))
  by_cases hempty : deltaAngles = []
  · subst hempty
    constructor
    · intro _
      rfl
    · rintro ⟨d, hd, -⟩
      simp at hd
  · have hne : theoreticalTimes maxSpeeds 0 deltaAngles ≠ [] := by
      intro hcon
      apply hempty
      have := theoreticalTimes_length maxSpeeds 0 deltaAngles
      rw [hcon] at this
      exact List.length_eq_zero.mp this.symm
    obtain ⟨M, hM⟩ := jsMax_isSome _ hne
    obtain ⟨hmem, hub⟩ := jsMax_spec _ _ hM
    have hub' : ∀ j < deltaAngles.length,
        |deltaAngles.getD j 0| / maxSpeeds.getD j 0 ≤ M := by
      intro j hj
      have : |deltaAngles.getD j 0| / maxSpeeds.getD (0 + j) 0 ∈
          theoreticalTimes maxSpeeds 0 deltaAngles :=
        (theoreticalTimes_mem maxSpeeds 0 deltaAngles _).mpr ⟨j, hj, rfl⟩
      simpa using hub _ this
    obtain ⟨jM, hjM, hMeq⟩ :=
      (theoreticalTimes_mem maxSpeeds 0 deltaAngles M).mp hmem
    rw [Nat.zero_add] at hMeq
    constructor
    · intro hz
      have hM0 : M = 0 := by
        rw [hMeq, hz _ (getD_mem_of_lt _ _ hjM)]
        simp
      unfold getCoordinatedSpeeds
      dsimp only
      rw [hM, hM0]
      split
      next h => simp at h
      next mtt h =>
        obtain rfl : (0 : ℚ) = mtt := by simpa using h
        rw [if_pos rfl]
    · rintro ⟨d0, hd0mem, hd0ne⟩
      obtain ⟨j0, hj0, hj0eq⟩ := exists_getD_of_mem _ _ hd0mem
      have hMpos : 0 < M := by
        refine lt_of_lt_of_le ?_ (hub' j0 hj0)
        exact div_pos (abs_pos.mpr (hj0eq ▸ hd0ne)) (hs j0 hj0)
      have hout : getCoordinatedSpeeds maxSpeeds deltaAngles =
          deltaAngles.map fun delta => delta / M := by
        unfold getCoordinatedSpeeds
        dsimp only
        rw [hM]
        split
        next h => simp at h
        next mtt h =>
          obtain rfl : M = mtt := by simpa using h
          rw [if_neg (ne_of_gt hMpos)]
      refine ⟨M, hMpos, hub', ⟨jM, hjM, hMeq.symm⟩, ?_⟩
      intro j hj
      have hgd : (getCoordinatedSpeeds maxSpeeds deltaAngles).getD j 0 =
          deltaAngles.getD j 0 / M := by
        rw [hout, map_getD _ _ _ hj]
      refine ⟨hgd, ?_, ?_, ?_, ?_⟩
      · rw [hgd, abs_div, abs_of_pos hMpos]
        rw [div_le_iff₀ hMpos]
        have h1 := (div_le_iff₀ (hs j hj)).mp (hub' j hj)
        calc |deltaAngles.getD j 0| ≤ M * maxSpeeds.getD j 0 := h1
          _ = maxSpeeds.getD j 0 * M := mul_comm _ _
      · intro hd
        rw [hgd]
        exact div_pos hd hMpos
      · intro hd
        rw [hgd]
        exact div_neg_of_neg_of_pos hd hMpos
      · intro hTj
        have hdj : |deltaAngles.getD j 0| = M * maxSpeeds.getD j 0 :=
          (div_eq_iff (ne_of_gt (hs j hj))).mp hTj
        rw [hgd, abs_div, abs_of_pos hMpos, hdj,
          mul_div_cancel_left₀ _ (ne_of_gt hMpos)]

/-- Witness for C9: the repository's own unit-test vector — deltas
`[10, 20, 15, 25, 30, 40]` with max speeds `[10, 20, 15, 25, 30, 40]`
(the mocked `JOINT_CONFIGS` of the `getCoordinatedSpeeds` test). -/
theorem getCoordinatedSpeeds_correct_witness :
    (([10, 20, 15, 25, 30, 40] : List ℚ).length ≤
        ([10, 20, 15, 25, 30, 40] : List ℚ).length ∧
      ∀ s ∈ ([10, 20, 15, 25, 30, 40] : List ℚ), 0 < s) ∧
    CoordinatedSpeedsClaim [10, 20, 15, 25, 30, 40]
      [10, 20, 15, 25, 30, 40] :=
  ⟨⟨le_refl _, by norm_num⟩,
   getCoordinatedSpeeds_correct [10, 20, 15, 25, 30, 40]
     [10, 20, 15, 25, 30, 40] (le_refl _) (by norm_num)⟩

theorem maxRequiredTimeStep_ok (ms qs qe : List ℚ) (j : ℕ)
    (hv : 0 < ms.getD j 0) (acc : ℚ) :
    maxRequiredTimeStep ms qs qe acc j =
      Except.ok (max acc (jointTravelTime ms qs qe j)) := by
  dsimp only [maxRequiredTimeStep, jointTravelTime]
  rw [if_neg (by rintro ⟨h0, -⟩; exact absurd h0 (ne_of_gt hv)), if_pos hv]
  congr 1
  rcases lt_or_le acc (|qe.getD j 0 - qs.getD j 0| / ms.getD j 0) with h | h
  · rw [if_pos h, max_eq_right (le_of_lt h)]
  · rw [if_neg (not_lt.mpr h), max_eq_left h]

theorem maxRequiredTimeLoop_eq (ms qs qe : List ℚ)
    (hv : ∀ j < 6, 0 < ms.getD j 0) :
    maxRequiredTimeLoop ms qs qe =
      Except.ok (max (max (max (max (max (jointTravelTime ms qs qe 0)
        (jointTravelTime ms qs qe 1)) (jointTravelTime ms qs qe 2))
        (jointTravelTime ms qs qe 3)) (jointTravelTime ms qs qe 4))
        (jointTravelTime ms qs qe 5)) := by
  have hT0 : 0 ≤ jointTravelTime ms qs qe 0 :=
    div_nonneg (abs_nonneg _) (le_of_lt (hv 0 (by norm_num)))
  simp only [maxRequiredTimeLoop,
    show List.range 6 = [0, 1, 2, 3, 4, 5] from rfl,
    List.foldlM_cons, List.foldlM_nil,
    maxRequiredTimeStep_ok ms qs qe 0 (hv 0 (by norm_num)),
    maxRequiredTimeStep_ok ms qs qe 1 (hv 1 (by norm_num)),
    maxRequiredTimeStep_ok ms qs qe 2 (hv 2 (by norm_num)),
    maxRequiredTimeStep_ok ms qs qe 3 (hv 3 (by norm_num)),
    maxRequiredTimeStep_ok ms qs qe 4 (hv 4 (by norm_num)),
    maxRequiredTimeStep_ok ms qs qe 5 (hv 5 (by norm_num))]
  rw [max_eq_right hT0]
  rfl

theorem mapM_total_ok (f : ℕ → Except MoveLError (List ℚ)) (l : List ℕ)
    (h : ∀ x ∈ l, ∃ y, f x = Except.ok y) :
    ∃ ys, l.mapM f = Except.ok ys := by
  induction l with
  | nil => exact ⟨[], rfl⟩
  | cons a rest ih =>
    obtain ⟨y, hy⟩ := h a (List.mem_cons_self _ _)
    obtain ⟨ys, hys⟩ := ih fun x hx => h x (List.mem_cons_of_mem _ hx)
    exact ⟨y :: ys, by rw [List.mapM_cons, hy, hys]; rfl⟩

theorem mapM_exists_error (f : ℕ → Except MoveLError (List ℚ))
    (l : List ℕ) (h : ∃ x ∈ l, ∃ e, f x = Except.error e) :
    ∃ e, l.mapM f = Except.error e := by
  induction l with
  | nil => simp at h
  | cons a rest ih =>
    obtain ⟨x, hx, e, hfe⟩ := h
    rcases List.mem_cons.mp hx with rfl | hx
    · exact ⟨e, by rw [List.mapM_cons, hfe]; rfl⟩
    · cases hfa : f a with
      | error e2 => exact ⟨e2, by rw [List.mapM_cons, hfa]; rfl⟩
      | ok y =>
        obtain ⟨e2, he2⟩ := ih ⟨x, hx, e, hfe⟩
        exact ⟨e2, by rw [List.mapM_cons, hfa, he2]; rfl⟩

theorem generateTrajectory_total_ok (ik : List ℚ → Option (List ℚ))
    (p0 p1 : List ℚ) (numSteps : ℤ)
    (hik : ∀ p, ∃ q, ik p = some q ∧ q.length = 6) :
    ∃ traj, generateTrajectory ik p0 p1 numSteps = Except.ok traj := by
  unfold generateTrajectory
  apply mapM_total_ok
  intro i _
  obtain ⟨q, hq1, hq2⟩ := hik (interpolatePose p0 p1 ((i : ℚ) / (numSteps : ℚ)))
  refine ⟨q, ?_⟩
  dsimp only
  rw [hq1]
  simp [hq2]

/-- When the start/end IK calls, the joint-count check, the velocity loop
and the whole trajectory generation succeed, `moveToLinearly` streams the
trajectory and returns the timing plan built from
`T = max(maxRequiredTime, 0.5)`. -/
theorem moveToLinearly_eq_of (ik : List ℚ → Option (List ℚ))
    (ms p0 p1 qs qe : List ℚ) (m : ℚ) (traj : List (List ℚ))
    (h0 : ik p0 = some qs) (h1 : ik p1 = some qe) (hq : qs.length = 6)
    (hloop : maxRequiredTimeLoop ms qs qe = Except.ok m)
    (hN : (⌈max m (1/2) * CONTROL_LOOP_FREQUENCY_HZ⌉ : ℤ) ≠ 0)
    (htraj : generateTrajectory ik p0 p1
      ⌈max m (1/2) * CONTROL_LOOP_FREQUENCY_HZ⌉ = Except.ok traj) :
    moveToLinearly ik ms p0 p1 =
      (dispatchedCommands traj ⌈max m (1/2) * CONTROL_LOOP_FREQUENCY_HZ⌉,
       Except.ok (some ⟨max m (1/2),
         ⌈max m (1/2) * CONTROL_LOOP_FREQUENCY_HZ⌉, TIME_STEP_MS,
         max m (1/2) * 1000 + 500⟩)) := by
  unfold moveToLinearly
  rw [h0, h1]
  dsimp only
  rw [if_neg (by simp [hq]), hloop]
  dsimp only
  rw [if_neg hN, htraj]

/-- When the start/end IK calls, the joint-count check and the velocity
loop succeed but trajectory generation fails, `moveToLinearly` returns
that error with an empty dispatch list. -/
theorem moveToLinearly_eq_error_of (ik : List ℚ → Option (List ℚ))
    (ms p0 p1 qs qe : List ℚ) (m : ℚ) (e : MoveLError)
    (h0 : ik p0 = some qs) (h1 : ik p1 = some qe) (hq : qs.length = 6)
    (hloop : maxRequiredTimeLoop ms qs qe = Except.ok m)
    (hN : (⌈max m (1/2) * CONTROL_LOOP_FREQUENCY_HZ⌉ : ℤ) ≠ 0)
    (htraj : generateTrajectory ik p0 p1
      ⌈max m (1/2) * CONTROL_LOOP_FREQUENCY_HZ⌉ = Except.error e) :
    moveToLinearly ik ms p0 p1 = ([], Except.error e) := by
  unfold moveToLinearly
  rw [h0, h1]
  dsimp only
  rw [if_neg (by simp [hq]), hloop]
  dsimp only
  rw [if_neg hN, htraj]

theorem ceil_T_pos (m : ℚ) :
    (0 : ℤ) < ⌈max m (1/2) * CONTROL_LOOP_FREQUENCY_HZ⌉ := by
  apply Int.ceil_pos.mpr
  have hT : (0 : ℚ) < max m (1/2) :=
    lt_of_lt_of_le (by norm_num) (le_max_right _ _)
  exact mul_pos hT (by norm_num [CONTROL_LOOP_FREQUENCY_HZ])

/-- C4: for every `moveToLinearly` invocation whose inverse kinematics
yields valid six-joint solutions (in particular at the start and target
poses) over joints with positive max speeds, the move resolves with
total time `T = max(max_j |q_end_j - q_start_j| / MAX_SPEED_j, 0.5)`
seconds, step count `N = ⌈T·50⌉`, a 20 ms tick period, and a final
settle wait of `T·1000 + 500` ms. -/
theorem moveToLinearly_timing (ik : List ℚ → Option (List ℚ))
    (maxSpeeds currentPose target qs qe : List ℚ)
    (h0 : ik currentPose = some qs) (h1 : ik target = some qe)
    (hq : qs.length = 6) (hs6 : maxSpeeds.length = 6)
    (hpos : ∀ s ∈ maxSpeeds, 0 < s)
    (hik : ∀ p, ∃ q, ik p = some q ∧ q.length = 6) :
    ∃ plan, (moveToLinearly ik maxSpeeds currentPose target).2 =
        Except.ok (some plan) ∧
      plan.totalMoveTimeSeconds =
        max (max (max (max (max (max (jointTravelTime maxSpeeds qs qe 0)
          (jointTravelTime maxSpeeds qs qe 1))
          (jointTravelTime maxSpeeds qs qe 2))
          (jointTravelTime maxSpeeds qs qe 3))
          (jointTravelTime maxSpeeds qs qe 4))
          (jointTravelTime maxSpeeds qs qe 5)) (1/2) ∧
      plan.numSteps = ⌈plan.totalMoveTimeSeconds * 50⌉ ∧
      plan.tickPeriodMs = 20 ∧
      plan.settleWaitMs = plan.totalMoveTimeSeconds * 1000 + 500 := by
  have hv : ∀ j < 6, 0 < maxSpeeds.getD j 0 := by
    intro j hj
    exact hpos _ (getD_mem_of_lt _ _ (by rw [hs6]; exact hj))
  have hloop := maxRequiredTimeLoop_eq maxSpeeds qs qe hv
  obtain ⟨traj, htraj⟩ :=
    generateTrajectory_total_ok ik currentPose target
      ⌈max (max (max (max (max (max (jointTravelTime maxSpeeds qs qe 0)
        (jointTravelTime maxSpeeds qs qe 1))
        (jointTravelTime maxSpeeds qs qe 2))
        (jointTravelTime maxSpeeds qs qe 3))
        (jointTravelTime maxSpeeds qs qe 4))
        (jointTravelTime maxSpeeds qs qe 5)) (1/2) *
        CONTROL_LOOP_FREQUENCY_HZ⌉ hik
  have hrun := moveToLinearly_eq_of ik maxSpeeds currentPose target qs qe _
    traj h0 h1 hq hloop (ne_of_gt (ceil_T_pos _)) htraj
  refine ⟨_, by rw [hrun], rfl, by rfl, ?_, rfl⟩
  show TIME_STEP_MS = 20
  norm_num [TIME_STEP_MS, CONTROL_LOOP_FREQUENCY_HZ]

/-- Witness for C4: a zero-length move with the constant IK stub over the
configured joint speeds resolves with `T = 0.5 s`, `N = 25`, 20 ms ticks
and a 1000 ms settle wait. -/
theorem moveToLinearly_timing_witness :
    (constIK [] = some [0, 0, 0, 0, 0, 0] ∧
      ([0, 0, 0, 0, 0, 0] : List ℚ).length = 6 ∧
      SAMPLE_MAX_SPEEDS.length = 6 ∧ (∀ s ∈ SAMPLE_MAX_SPEEDS, 0 < s) ∧
      (∀ p, ∃ q, constIK p = some q ∧ q.length = 6)) ∧
    ∃ plan, (moveToLinearly constIK SAMPLE_MAX_SPEEDS [] []).2 =
        Except.ok (some plan) ∧
      plan.totalMoveTimeSeconds =
        max (max (max (max (max (max
          (jointTravelTime SAMPLE_MAX_SPEEDS [0, 0, 0, 0, 0, 0]
            [0, 0, 0, 0, 0, 0] 0)
          (jointTravelTime SAMPLE_MAX_SPEEDS [0, 0, 0, 0, 0, 0]
            [0, 0, 0, 0, 0, 0] 1))
          (jointTravelTime SAMPLE_MAX_SPEEDS [0, 0, 0, 0, 0, 0]
            [0, 0, 0, 0, 0, 0] 2))
          (jointTravelTime SAMPLE_MAX_SPEEDS [0, 0, 0, 0, 0, 0]
            [0, 0, 0, 0, 0, 0] 3))
          (jointTravelTime SAMPLE_MAX_SPEEDS [0, 0, 0, 0, 0, 0]
            [0, 0, 0, 0, 0, 0] 4))
          (jointTravelTime SAMPLE_MAX_SPEEDS [0, 0, 0, 0, 0, 0]
            [0, 0, 0, 0, 0, 0] 5)) (1/2) ∧
      plan.numSteps = ⌈plan.totalMoveTimeSeconds * 50⌉ ∧
      plan.tickPeriodMs = 20 ∧
      plan.settleWaitMs = plan.totalMoveTimeSeconds * 1000 + 500 :=
  ⟨⟨rfl, rfl, rfl, by norm_num [SAMPLE_MAX_SPEEDS],
    fun p => ⟨[0, 0, 0, 0, 0, 0], rfl, rfl⟩⟩,
   moveToLinearly_timing constIK SAMPLE_MAX_SPEEDS [] []
     [0, 0, 0, 0, 0, 0] [0, 0, 0, 0, 0, 0] rfl rfl rfl rfl
     (by norm_num [SAMPLE_MAX_SPEEDS])
     (fun p => ⟨[0, 0, 0, 0, 0, 0], rfl, rfl⟩)⟩

/-- C5: if inverse kinematics fails (throws, or returns a joint vector of
the wrong arity) at any of the `0..N` interpolated trajectory samples,
`moveToLinearly` aborts with an error and no rotate command is ever
dispatched: the whole trajectory is generated and validated before the
streaming scheduler starts, so the dispatch list is empty. -/
theorem moveToLinearly_ik_failure_aborts (ik : List ℚ → Option (List ℚ))
    (maxSpeeds currentPose target qs qe : List ℚ) (m : ℚ)
    (h0 : ik currentPose = some qs) (h1 : ik target = some qe)
    (hq : qs.length = 6)
    (hloop : maxRequiredTimeLoop maxSpeeds qs qe = Except.ok m)
    (hfail : ∃ i ∈ List.range
        ((⌈max m (1/2) * CONTROL_LOOP_FREQUENCY_HZ⌉ : ℤ).toNat + 1),
      ∀ q, ik (interpolatePose currentPose target
        ((i : ℚ) /
          ((⌈max m (1/2) * CONTROL_LOOP_FREQUENCY_HZ⌉ : ℤ) : ℚ))) =
        some q → q.length ≠ 6) :
    (moveToLinearly ik maxSpeeds currentPose target).1 = [] ∧
    ∃ e, (moveToLinearly ik maxSpeeds currentPose target).2 =
      Except.error e := by
  obtain ⟨i, hi, hbad⟩ := hfail
  have hgen : ∃ e, generateTrajectory ik currentPose target
      ⌈max m (1/2) * CONTROL_LOOP_FREQUENCY_HZ⌉ = Except.error e := by
    unfold generateTrajectory
    apply mapM_exists_error
    refine ⟨i, hi, ?_⟩
    dsimp only
    cases hik : ik (interpolatePose currentPose target
        ((i : ℚ) /
          ((⌈max m (1/2) * CONTROL_LOOP_FREQUENCY_HZ⌉ : ℤ) : ℚ))) with
    | none => exact ⟨MoveLError.ikThrew, rfl⟩
    | some q =>
      exact ⟨MoveLError.trajectoryIKInvalid, by simp [hbad q hik]⟩
  obtain ⟨e, hgen⟩ := hgen
  have hrun := moveToLinearly_eq_error_of ik maxSpeeds currentPose target
    qs qe m e h0 h1 hq hloop (ne_of_gt (ceil_T_pos m)) hgen
  rw [hrun]
  exact ⟨rfl, e, rfl⟩

/-- Witness for C5: with `blockedIK` (which throws exactly on poses whose
first coordinate is 5), moving from `[0,...]` to `[10,...]` fails at
sample `i = 25` of 50 (where interpolation hits 5) and aborts with no
dispatched command. -/
theorem moveToLinearly_ik_failure_aborts_witness :
    (blockedIK [0, 0, 0, 0, 0, 0] = some [0, 0, 0, 0, 0, 0] ∧
      blockedIK [10, 0, 0, 0, 0, 0] = some [10, 0, 0, 0, 0, 0] ∧
      ([0, 0, 0, 0, 0, 0] : List ℚ).length = 6 ∧
      maxRequiredTimeLoop SAMPLE_MAX_SPEEDS [0, 0, 0, 0, 0, 0]
        [10, 0, 0, 0, 0, 0] = Except.ok 1 ∧
      (∃ i ∈ List.range
          ((⌈max (1 : ℚ) (1/2) * CONTROL_LOOP_FREQUENCY_HZ⌉ : ℤ).toNat + 1),
        ∀ q, blockedIK (interpolatePose [0, 0, 0, 0, 0, 0]
          [10, 0, 0, 0, 0, 0]
          ((i : ℚ) /
            ((⌈max (1 : ℚ) (1/2) * CONTROL_LOOP_FREQUENCY_HZ⌉ : ℤ) : ℚ))) =
          some q → q.length ≠ 6)) ∧
    ((moveToLinearly blockedIK SAMPLE_MAX_SPEEDS [0, 0, 0, 0, 0, 0]
        [10, 0, 0, 0, 0, 0]).1 = [] ∧
      ∃ e, (moveToLinearly blockedIK SAMPLE_MAX_SPEEDS [0, 0, 0, 0, 0, 0]
        [10, 0, 0, 0, 0, 0]).2 = Except.error e) := by
  have hceil : (⌈max (1 : ℚ) (1/2) * CONTROL_LOOP_FREQUENCY_HZ⌉ : ℤ) = 50 := by
    norm_num [CONTROL_LOOP_FREQUENCY_HZ]
  have h0 : blockedIK [0, 0, 0, 0, 0, 0] = some [0, 0, 0, 0, 0, 0] := by
    norm_num [blockedIK]
  have h1 : blockedIK [10, 0, 0, 0, 0, 0] = some [10, 0, 0, 0, 0, 0] := by
    norm_num [blockedIK]
  have hloop : maxRequiredTimeLoop SAMPLE_MAX_SPEEDS [0, 0, 0, 0, 0, 0]
      [10, 0, 0, 0, 0, 0] = Except.ok 1 := by
    rw [maxRequiredTimeLoop_eq _ _ _
      (by intro j hj; interval_cases j <;> norm_num [SAMPLE_MAX_SPEEDS])]
    norm_num [jointTravelTime, SAMPLE_MAX_SPEEDS]
  have hmid : blockedIK (interpolatePose [0, 0, 0, 0, 0, 0]
      [10, 0, 0, 0, 0, 0]
      (((25 : ℕ) : ℚ) /
        ((⌈max (1 : ℚ) (1/2) * CONTROL_LOOP_FREQUENCY_HZ⌉ : ℤ) : ℚ))) =
      none := by
    rw [hceil]
    norm_num [blockedIK, interpolatePose, interpolatePoseFrom, lerp]
  have hfail : ∃ i ∈ List.range
      ((⌈max (1 : ℚ) (1/2) * CONTROL_LOOP_FREQUENCY_HZ⌉ : ℤ).toNat + 1),
      ∀ q, blockedIK (interpolatePose [0, 0, 0, 0, 0, 0]
        [10, 0, 0, 0, 0, 0]
        ((i : ℚ) /
          ((⌈max (1 : ℚ) (1/2) * CONTROL_LOOP_FREQUENCY_HZ⌉ : ℤ) : ℚ))) =
        some q → q.length ≠ 6 := by
    refine ⟨25, ?_, ?_⟩
    · rw [hceil]
      decide
    · intro q hcon
      rw [hmid] at hcon
      cases hcon
  exact ⟨⟨h0, h1, rfl, hloop, hfail⟩,
    moveToLinearly_ik_failure_aborts blockedIK SAMPLE_MAX_SPEEDS
      [0, 0, 0, 0, 0, 0] [10, 0, 0, 0, 0, 0] [0, 0, 0, 0, 0, 0]
      [10, 0, 0, 0, 0, 0] 1 h0 h1 rfl hloop hfail⟩

/-- C6: for every joint in any state (homed or un-homed, homing or not),
`rotateBy(0)` resolves successfully with `true`, performs neither the
homed check nor the range check, issues only the zero-step fence, and
leaves the whole joint state — in particular the stored angle `Degrees` —
unchanged. -/
theorem rotateBy_zero_fence (cfg : JointConfig) (st : JointState)
    (reportPos completedAbs : ℤ) :
    rotateBy cfg st 0 reportPos completedAbs =
      ⟨[WireCmd.stepRel 0], st, Except.ok true⟩ := rfl

/-- C7: on a homed, non-homing joint, `rotateTo` with a target outside the
configured range throws the out-of-range error and sends no wire command
at all (in particular no `accelStepperTo`). -/
theorem rotateTo_out_of_range_no_command (cfg : JointConfig)
    (st : JointState) (target : ℚ) (completedAbs : ℤ)
    (hhomed : st.homed = true) (hhoming : st.isHoming = false)
    (hout : target < cfg.RANGE.1 ∨ cfg.RANGE.2 < target) :
    rotateTo cfg st target completedAbs =
      ⟨[], st, Except.error JointError.outOfRange⟩ := by
  have hr : ensureInRange cfg st target = .error .outOfRange := by
    simp only [ensureInRange, hhoming, if_false, Bool.false_eq_true]
    rw [if_pos]
    rcases hout with h | h
    · exact Or.inl h
    · exact Or.inr h
  simp [rotateTo, ensureHomed, hhomed, hhoming, hr]

/-- Witness for C7: `rotate_to(106)` on a homed J1 (range `[0, 105]`)
errors without any wire command. -/
theorem rotateTo_out_of_range_no_command_witness :
    (homedIdleState.homed = true ∧ homedIdleState.isHoming = false ∧
      ((106 : ℚ) < MOTOR_CONFIG_J1.RANGE.1 ∨
        MOTOR_CONFIG_J1.RANGE.2 < (106 : ℚ))) ∧
    rotateTo MOTOR_CONFIG_J1 homedIdleState 106 0 =
      ⟨[], homedIdleState, Except.error JointError.outOfRange⟩ :=
  ⟨⟨by decide, by decide, by decide⟩,
   rotateTo_out_of_range_no_command MOTOR_CONFIG_J1 homedIdleState 106 0
     (by decide) (by decide) (by decide)⟩

/-- C1 (amended): on a homed, non-homing joint, a non-zero `rotateBy`
whose target passes the range check updates the stored angle `Degrees`
from the absolute step count reported at completion, and the promise
resolves with `true` iff the reported angle is exactly equal (strict
equality, not one-step tolerance) to the commanded target
`delta + reported start angle`. -/
theorem rotateBy_updates_and_exact_compare (cfg : JointConfig)
    (st : JointState) (degrees : ℚ) (reportPos completedAbs : ℤ)
    (hnz : degrees ≠ 0) (hhomed : st.homed = true)
    (hhoming : st.isHoming = false)
    (hlo : cfg.RANGE.1 ≤ degrees + convertStepsToDegrees cfg (reportPos : ℚ))
    (hhi : degrees + convertStepsToDegrees cfg (reportPos : ℚ) ≤
      cfg.RANGE.2) :
    (rotateBy cfg st degrees reportPos completedAbs).state.degrees =
      convertStepsToDegrees cfg (completedAbs : ℚ) ∧
    ((rotateBy cfg st degrees reportPos completedAbs).result =
        Except.ok true ↔
      convertStepsToDegrees cfg (completedAbs : ℚ) =
        degrees + convertStepsToDegrees cfg (reportPos : ℚ)) := by
  have hin : ensureInRange cfg st
      (degrees + convertStepsToDegrees cfg (reportPos : ℚ)) = .ok () := by
    simp only [ensureInRange, hhoming, if_false, Bool.false_eq_true]
    rw [if_neg]
    push_neg
    exact ⟨hlo, hhi⟩
  simp [rotateBy, ensureHomed, hnz, hhomed, hhoming, hin, eq_comm]

/-- Witness for C1: on a homed J6 (1600 steps/rev, one step = 0.225°),
`rotate_by(0.225)` starting from reported position 0 with completion
report 1 step resolves `true`, and the stored angle becomes 0.225°. -/
theorem rotateBy_updates_and_exact_compare_witness :
    (((9 : ℚ)/40 ≠ 0 ∧ homedIdleState.homed = true ∧
        homedIdleState.isHoming = false) ∧
      MOTOR_CONFIG_J6.RANGE.1 ≤
        9/40 + convertStepsToDegrees MOTOR_CONFIG_J6 ((0 : ℤ) : ℚ) ∧
      9/40 + convertStepsToDegrees MOTOR_CONFIG_J6 ((0 : ℤ) : ℚ) ≤
        MOTOR_CONFIG_J6.RANGE.2) ∧
    ((rotateBy MOTOR_CONFIG_J6 homedIdleState (9/40) 0 1).state.degrees =
      convertStepsToDegrees MOTOR_CONFIG_J6 ((1 : ℤ) : ℚ) ∧
    ((rotateBy MOTOR_CONFIG_J6 homedIdleState (9/40) 0 1).result =
        Except.ok true ↔
      convertStepsToDegrees MOTOR_CONFIG_J6 ((1 : ℤ) : ℚ) =
        9/40 + convertStepsToDegrees MOTOR_CONFIG_J6 ((0 : ℤ) : ℚ))) :=
  ⟨⟨⟨by norm_num, rfl, rfl⟩,
    by norm_num [MOTOR_CONFIG_J6, convertStepsToDegrees],
    by norm_num [MOTOR_CONFIG_J6, convertStepsToDegrees]⟩,
   rotateBy_updates_and_exact_compare MOTOR_CONFIG_J6 homedIdleState
     (9/40) 0 1 (by norm_num) rfl rfl
     (by norm_num [MOTOR_CONFIG_J6, convertStepsToDegrees])
     (by norm_num [MOTOR_CONFIG_J6, convertStepsToDegrees])⟩

/-- Counterexample for C1 as stated: on a homed J6, `rotate_by(0.1125)`
(half a step) with completion report 0 leaves the reported angle within
one-step precision (`0.1125 < 360/1600 = 0.225`) of the commanded target,
yet the promise resolves with `false`, because the source compares with
strict `===` equality. -/
theorem rotateBy_one_step_precision_counterexample :
    (rotateBy MOTOR_CONFIG_J6 homedIdleState (9/80) 0 0).result =
      Except.ok false ∧
    |convertStepsToDegrees MOTOR_CONFIG_J6 ((0 : ℤ) : ℚ) -
        ((9 : ℚ)/80 + convertStepsToDegrees MOTOR_CONFIG_J6 ((0 : ℤ) : ℚ))| <
      360 / MOTOR_CONFIG_J6.STEPS_PER_REV := by
  constructor
  · norm_num [rotateBy, ensureHomed, ensureInRange, homedIdleState,
      MOTOR_CONFIG_J6, convertStepsToDegrees, convertDegreesToSteps]
  · norm_num [convertStepsToDegrees, MOTOR_CONFIG_J6]
    rw [abs_of_nonneg (by norm_num)]
    norm_num

/-- C2 (code bug): a homing run on an un-homed J3 joint whose limit switch
is never activated terminates with the homing-failed error, but — because
the `throw` in `Joint.home` precedes the `this.isHoming = false`
assignment — the `isHoming` flag is left `true`, so the range-check bypass
stays enabled after the failed homing. -/
theorem home_leaves_isHoming_set_on_failure :
    (home MOTOR_CONFIG_J3 freshState
        [⟨0, 0, false, 0, -3000, false, 0⟩]).map
      (fun r => (r.state.isHoming, r.state.homed,
        match r.result with
        | .error .homingFailed => true
        | _ => false)) = some (true, false, true) := by
  norm_num [home, rotateBy, rotateTo, stopJoint, setSpeed, setAcceleration,
    ensureHomed, ensureInRange, convertStepsToDegrees, convertDegreesToSteps,
    MOTOR_CONFIG_J3, freshState]

/-- When `rotateTo` succeeds, the state it leaves behind is the input
state with `degrees` replaced by the angle computed from the completion
report. -/
theorem rotateTo_ok_state (cfg : JointConfig) (st : JointState)
    (target : ℚ) (c : ℤ) (b : Bool)
    (h : (rotateTo cfg st target c).result = Except.ok b) :
    (rotateTo cfg st target c).state =
      { st with degrees := convertStepsToDegrees cfg (c : ℚ) } := by
  unfold rotateTo at h ⊢
  split at h
  next e heq => simp at h
  next heq =>
    split at h
    next e heq2 => simp at h
    next heq2 => rfl

/-- One-step-precision arithmetic: if the completion report is within one
step of the commanded (fractional) target step count, the resulting angle
is within `360/STEPS_PER_REV` degrees of the target angle. -/
theorem step_precision (cfg : JointConfig) (c : ℤ) (target : ℚ)
    (hspr : 0 < cfg.STEPS_PER_REV)
    (hc : |(c : ℚ) - convertDegreesToSteps cfg target| ≤ 1) :
    |convertStepsToDegrees cfg (c : ℚ) - target| ≤
      360 / cfg.STEPS_PER_REV := by
  have hS : cfg.STEPS_PER_REV ≠ 0 := ne_of_gt hspr
  have h1 : convertStepsToDegrees cfg (c : ℚ) - target =
      ((c : ℚ) - convertDegreesToSteps cfg target) *
        (360 / cfg.STEPS_PER_REV) := by
    field_simp [convertStepsToDegrees, convertDegreesToSteps]
    ring
  have h2 : (0 : ℚ) < 360 / cfg.STEPS_PER_REV := div_pos (by norm_num) hspr
  rw [h1, abs_mul, abs_of_pos h2]
  exact mul_le_of_le_one_left (le_of_lt h2) hc

/-- C8: whenever `home()` resolves successfully (over any number of
pre-check recursion rounds), and the microcontroller's completion report
for the final `rotateTo(READY_POSITION)` lands within one step of the
commanded step count, the resulting joint state is homed and its stored
angle `Degrees` equals the configured `READY_POSITION` within one-step
precision (`360/STEPS_PER_REV` degrees). -/
theorem home_success_ready_position (cfg : JointConfig)
    (rounds : List HomeRound) (st st' : JointState)
    (hspr : 0 < cfg.STEPS_PER_REV)
    (hready : ∀ e ∈ rounds,
      |(e.readyComplete : ℚ) -
        convertDegreesToSteps cfg cfg.READY_POSITION| ≤ 1)
    (hrun : (home cfg st rounds).map (fun r => (r.state, r.result)) =
      some (st', Except.ok true)) :
    st'.homed = true ∧
    |st'.degrees - cfg.READY_POSITION| ≤ 360 / cfg.STEPS_PER_REV := by
  induction rounds generalizing st with
  | nil => simp [home] at hrun
  | cons e rest ih =>
    rw [home] at hrun
    split at hrun
    · -- pre-check branch: back off 15° and recurse
      dsimp only at hrun
      split at hrun
      next err heq => simp at hrun
      next heq =>
        split at hrun
        next heq2 => simp at hrun
        next r2 heq2 =>
          simp only [Option.map_some', Option.some.injEq, Prod.mk.injEq]
            at hrun
          have hmap : ∀ s : JointState, home cfg s rest = some r2 →
              (home cfg s rest).map (fun r => (r.state, r.result)) =
                some (st', Except.ok true) := by
            intro s hs
            rw [hs]
            simp [hrun.1, hrun.2]
          exact ih _ (fun e' he' => hready e' (List.mem_cons_of_mem _ he'))
            (hmap _ heq2)
    · -- seek branch
      dsimp only at hrun
      split at hrun
      next err heq => simp at hrun
      next heq =>
        split at hrun
        · -- switch active after seek: success path through rotateTo(READY)
          split at hrun
          next err heq2 => simp at hrun
          next b heq2 =>
            simp only [Option.map_some', Option.some.injEq, Prod.mk.injEq]
              at hrun
            have hstate := rotateTo_ok_state cfg _ cfg.READY_POSITION
              e.readyComplete b heq2
            rw [← hrun.1, hstate]
            exact ⟨rfl,
              step_precision cfg e.readyComplete cfg.READY_POSITION hspr
                (hready e (List.mem_cons_self _ _))⟩
        · -- switch inactive: homingFailed, contradicts the ok-true run
          simp at hrun

/-- Witness for C8: homing a fresh J3 joint with a round in which the seek
activates the switch and the ready move completes exactly at the
commanded 4199 steps ends homed at 37.791°. -/
theorem home_success_ready_position_witness :
    ((0 : ℚ) < MOTOR_CONFIG_J3.STEPS_PER_REV ∧
      (∀ e ∈ [(⟨0, 0, false, 0, -3000, true, 4199⟩ : HomeRound)],
        |(e.readyComplete : ℚ) -
          convertDegreesToSteps MOTOR_CONFIG_J3
            MOTOR_CONFIG_J3.READY_POSITION| ≤ 1)) ∧
    (({ degrees := 37.791, homed := true, isHoming := false,
        homeSwitchActivate := true, currentSpeedInDegrees := 30,
        currentAcceleration := 20 } : JointState).homed = true ∧
      |({ degrees := 37.791, homed := true, isHoming := false,
          homeSwitchActivate := true, currentSpeedInDegrees := 30,
          currentAcceleration := 20 } : JointState).degrees -
        MOTOR_CONFIG_J3.READY_POSITION| ≤
        360 / MOTOR_CONFIG_J3.STEPS_PER_REV) :=
  ⟨⟨by norm_num [MOTOR_CONFIG_J3],
    by norm_num [convertDegreesToSteps, MOTOR_CONFIG_J3]⟩,
   home_success_ready_position MOTOR_CONFIG_J3
     [⟨0, 0, false, 0, -3000, true, 4199⟩] freshState
     { degrees := 37.791, homed := true, isHoming := false,
       homeSwitchActivate := true, currentSpeedInDegrees := 30,
       currentAcceleration := 20 }
     (by norm_num [MOTOR_CONFIG_J3])
     (by norm_num [convertDegreesToSteps, MOTOR_CONFIG_J3])
     (by norm_num [home, rotateBy, rotateTo, stopJoint, setSpeed,
       setAcceleration, ensureHomed, ensureInRange, convertStepsToDegrees,
       convertDegreesToSteps, MOTOR_CONFIG_J3, freshState])⟩

/-- Bounds for the degree-scaled arctangent: `arctan t · 180/π` lies
strictly between `-90` and `90`. -/
theorem arctan_deg_bounds (t : ℝ) :
    -90 < Real.arctan t * (180 / Real.pi) ∧
    Real.arctan t * (180 / Real.pi) < 90 := by
  have hpi := Real.pi_pos
  have hc : (0 : ℝ) < 180 / Real.pi := by positivity
  have h1 := Real.arctan_lt_pi_div_two t
  have h2 := Real.neg_pi_div_two_lt_arctan t
  have hhi : Real.arctan t * (180 / Real.pi) <
      Real.pi / 2 * (180 / Real.pi) := mul_lt_mul_of_pos_right h1 hc
  have hlo : -(Real.pi / 2) * (180 / Real.pi) <
      Real.arctan t * (180 / Real.pi) := mul_lt_mul_of_pos_right h2 hc
  have he : Real.pi / 2 * (180 / Real.pi) = 90 := by
    field_simp
    ring
  have he2 : -(Real.pi / 2) * (180 / Real.pi) = -90 := by
    rw [neg_mul, he]
  constructor
  · rw [he2] at hlo
    exact hlo
  · rw [he] at hhi
    exact hhi

/-- C3 (amended): `getJ1Angle(x, y)` always lies in the half-open
interval `[-180, 180)` — the seam value `-180` is attained (at the
negative-x axis with `y = 0`) and `+180` never is. -/
theorem getJ1Angle_range (x y : ℝ) :
    -180 ≤ getJ1Angle x y ∧ getJ1Angle x y < 180 := by
  have hc : (0 : ℝ) < 180 / Real.pi := by positivity
  unfold getJ1Angle
  split_ifs with h1 h2 h3 h4 h5
  · norm_num
  · obtain ⟨hb1, hb2⟩ := arctan_deg_bounds (y / x)
    constructor <;> linarith
  · obtain ⟨hb1, hb2⟩ := arctan_deg_bounds (y / x)
    constructor <;> linarith
  · obtain ⟨hb1, hb2⟩ := arctan_deg_bounds (y / x)
    have hdiv : 0 ≤ y / x :=
      div_nonneg_iff.mpr (Or.inr ⟨h4.2, le_of_lt h4.1⟩)
    have hat : 0 ≤ Real.arctan (y / x) := by
      rcases eq_or_lt_of_le hdiv with he0 | hlt
      · rw [← he0, Real.arctan_zero]
      · have hmono := Real.arctan_strictMono hlt
        rw [Real.arctan_zero] at hmono
        exact le_of_lt hmono
    have hA : 0 ≤ Real.arctan (y / x) * (180 / Real.pi) :=
      mul_nonneg hat (le_of_lt hc)
    constructor <;> linarith
  · obtain ⟨hb1, hb2⟩ := arctan_deg_bounds (y / x)
    have hx : x < 0 := lt_of_le_of_ne h5.1 h1
    have hdiv : y / x < 0 := div_neg_of_pos_of_neg h5.2 hx
    have hat : Real.arctan (y / x) < 0 := by
      rw [← Real.arctan_zero]
      exact Real.arctan_strictMono hdiv
    have hA : Real.arctan (y / x) * (180 / Real.pi) < 0 :=
      mul_neg_of_neg_of_pos hat hc
    constructor <;> linarith
  · norm_num

/-- Counterexample for C3 as stated: `getJ1Angle(-1, 0) = -180`, which is
not in the claimed half-open interval `(-180, 180]`. -/
theorem getJ1Angle_seam_counterexample :
    getJ1Angle (-1) 0 = -180 ∧
    ¬((-180 : ℝ) < getJ1Angle (-1) 0 ∧ getJ1Angle (-1) 0 ≤ 180) := by
  have h : getJ1Angle (-1) 0 = -180 := by
    unfold getJ1Angle
    norm_num [Real.arctan_zero]
  exact ⟨h, by rw [h]; norm_num⟩

/-- `atan2` recovers an angle in `(-π, π]` from its sine and cosine. -/
theorem atan2_sin_cos (t : ℝ) (ht : t ∈ Set.Ioc (-Real.pi) Real.pi) :
    atan2 (Real.sin t) (Real.cos t) = t := by
  unfold atan2
  rw [Complex.mk_eq_add_mul_I, Complex.ofReal_cos, Complex.ofReal_sin]
  exact Complex.arg_cos_add_sin_mul_I ht

/-- C10: extracting the pose from the homogeneous matrix built from
`(x, y, z, rx, ry, rz)` recovers the position exactly and the three Euler
angles (converted to degrees), for `|ry| < π/2` (away from the pitch
singularity) and `rx, rz ∈ (-π, π]`. -/
theorem create_extract_roundtrip (x y z rx ry rz : ℝ)
    (hry : |ry| < Real.pi / 2)
    (hrx : rx ∈ Set.Ioc (-Real.pi) Real.pi)
    (hrz : rz ∈ Set.Ioc (-Real.pi) Real.pi) :
    extractHomogeneousMatrix (createHomogeneousMatrix x y z rx ry rz) =
      ⟨x, y, z, radToDeg rx, radToDeg ry, radToDeg rz⟩ := by
  have hpi := Real.pi_pos
  obtain ⟨hry1, hry2⟩ := abs_lt.mp hry
  have hcos : 0 < Real.cos ry :=
    Real.cos_pos_of_mem_Ioo ⟨hry1, hry2⟩
  have hrymem : ry ∈ Set.Ioc (-Real.pi) Real.pi :=
    ⟨by linarith, by linarith⟩
  have hsqrt : Real.sqrt ((Real.cos rz * Real.cos ry) ^ 2 +
      (Real.sin rz * Real.cos ry) ^ 2) = Real.cos ry := by
    have hkey : (Real.cos rz * Real.cos ry) ^ 2 +
        (Real.sin rz * Real.cos ry) ^ 2 = Real.cos ry ^ 2 := by
      have hsc := Real.sin_sq_add_cos_sq rz
      nlinarith [hsc]
    rw [hkey, Real.sqrt_sq_eq_abs, abs_of_pos hcos]
  have hinner : atan2 (-(-Real.sin ry))
      (Real.sqrt ((Real.cos rz * Real.cos ry) ^ 2 +
        (Real.sin rz * Real.cos ry) ^ 2)) = ry := by
    rw [neg_neg, hsqrt]
    exact atan2_sin_cos ry hrymem
  unfold extractHomogeneousMatrix createHomogeneousMatrix
  dsimp only
  rw [hinner]
  have hx' : Real.cos ry * Real.sin rx / Real.cos ry = Real.sin rx :=
    mul_div_cancel_left₀ _ (ne_of_gt hcos)
  have hx2 : Real.cos ry * Real.cos rx / Real.cos ry = Real.cos rx :=
    mul_div_cancel_left₀ _ (ne_of_gt hcos)
  have hz1 : Real.sin rz * Real.cos ry / Real.cos ry = Real.sin rz :=
    mul_div_cancel_right₀ _ (ne_of_gt hcos)
  have hz2 : Real.cos rz * Real.cos ry / Real.cos ry = Real.cos rz :=
    mul_div_cancel_right₀ _ (ne_of_gt hcos)
  rw [hx', hx2, hz1, hz2, atan2_sin_cos rx hrx, atan2_sin_cos rz hrz]

/-- Witness for C10: the identity-orientation pose `(1, 2, 3, 0, 0, 0)`
round-trips through `createHomogeneousMatrix` and
`extractHomogeneousMatrix`. -/
theorem create_extract_roundtrip_witness :
    (|(0 : ℝ)| < Real.pi / 2 ∧
      (0 : ℝ) ∈ Set.Ioc (-Real.pi) Real.pi) ∧
    extractHomogeneousMatrix (createHomogeneousMatrix 1 2 3 0 0 0) =
      ⟨1, 2, 3, radToDeg 0, radToDeg 0, radToDeg 0⟩ :=
  ⟨⟨by rw [abs_zero]; positivity,
    ⟨by linarith [Real.pi_pos], le_of_lt Real.pi_pos⟩⟩,
   create_extract_roundtrip 1 2 3 0 0 0 (by rw [abs_zero]; positivity)
     ⟨by linarith [Real.pi_pos], le_of_lt Real.pi_pos⟩
     ⟨by linarith [Real.pi_pos], le_of_lt Real.pi_pos⟩⟩

end XD6
